import Mathlib

/-!
Verification of the share-ledger (vault) arithmetic specified for this
repository.  The vault contract itself is not shipped in the repository
(only its tests and deployment scripts are), so every operation below is
modelled from the specification's description of the Share Ledger and its
virtual-offset share pricing, and checked against the expectations encoded
in the test suite (tests/test_vault.py).

State is a `Vault` record over arbitrary-precision non-negative integers
(`Nat`), matching the spec's data model; accounts are identified by `Nat`.
Fallible operations return `Except VaultError`; the `*Run` wrappers express
the all-or-nothing transaction semantics (an error leaves the state as it
was).
-/

namespace RskVyper

/-- Modelled from the spec: constant `VIRTUAL_SHARES = 1_000_000_000` (1e9),
the virtual share offset added to `totalShares` in both conversions. -/
def VIRTUAL_SHARES : Nat := 1000000000

/-- Modelled from the spec: constant `VIRTUAL_ASSETS = 1`, the virtual asset
offset added to `totalAssets` in both conversions. -/
def VIRTUAL_ASSETS : Nat := 1

/-- Modelled from the spec: the Share Ledger data model — `totalAssets` and
`totalShares` are non-negative integers and `sharesOf` maps account
identifiers to non-negative share balances; the ledger also has a designated
owner for the privileged operations. -/
structure Vault where
  owner : Nat
  totalAssets : Nat
  totalShares : Nat
  sharesOf : Nat → Nat

/-- Modelled from the spec: the three error kinds `InvalidAmount`,
`InsufficientShares` and `Unauthorized`. -/
inductive VaultError where
  | invalidAmount
  | insufficientShares
  | unauthorized
deriving DecidableEq

/-- Modelled from the spec: `convertToShares(assets)` returns
`floor(assets * (totalShares + VIRTUAL_SHARES) / (totalAssets + VIRTUAL_ASSETS))`,
with floor (truncating) division. -/
def convertToShares (v : Vault) (assets : Nat) : Nat :=
  assets * (v.totalShares + VIRTUAL_SHARES) / (v.totalAssets + VIRTUAL_ASSETS)

/-- Modelled from the spec: `convertToAssets(shares)` returns
`floor(shares * (totalAssets + VIRTUAL_ASSETS) / (totalShares + VIRTUAL_SHARES))`,
with floor (truncating) division. -/
def convertToAssets (v : Vault) (sharesAmt : Nat) : Nat :=
  sharesAmt * (v.totalAssets + VIRTUAL_ASSETS) / (v.totalShares + VIRTUAL_SHARES)

/-- Modelled from the spec: `deposit(amount)` requires `amount > 0` (else
`InvalidAmount`), computes `mintedShares = convertToShares(amount)` at the
pre-deposit totals, then increases `totalAssets` by `amount`, `totalShares`
and `sharesOf(caller)` by `mintedShares`.  Returns the new state together
with the minted share count. -/
def deposit (v : Vault) (caller amount : Nat) : Except VaultError (Vault × Nat) :=
  if amount = 0 then .error .invalidAmount
  else
    let minted := convertToShares v amount
    .ok ({ v with
            totalAssets := v.totalAssets + amount
            totalShares := v.totalShares + minted
            sharesOf := fun a => if a = caller then v.sharesOf a + minted else v.sharesOf a },
         minted)

/-- Modelled from the spec: `withdraw(sharesToBurn)` requires
`sharesToBurn > 0` (else `InvalidAmount`) and
`sharesOf(caller) >= sharesToBurn` (else `InsufficientShares`), computes
`assetsOut = convertToAssets(sharesToBurn)` at the pre-withdrawal totals,
then decreases `sharesOf(caller)` and `totalShares` by `sharesToBurn` and
`totalAssets` by `assetsOut`.  Returns the new state with the payout. -/
def withdraw (v : Vault) (caller sharesToBurn : Nat) : Except VaultError (Vault × Nat) :=
  if sharesToBurn = 0 then .error .invalidAmount
  else if v.sharesOf caller < sharesToBurn then .error .insufficientShares
  else
    let assetsOut := convertToAssets v sharesToBurn
    .ok ({ v with
            totalAssets := v.totalAssets - assetsOut
            totalShares := v.totalShares - sharesToBurn
            sharesOf := fun a => if a = caller then v.sharesOf a - sharesToBurn else v.sharesOf a },
         assetsOut)

/-- Modelled from the spec: `withdrawAll(caller)` is equivalent to
`withdraw(sharesOf(caller))` by that caller. -/
def withdrawAll (v : Vault) (caller : Nat) : Except VaultError (Vault × Nat) :=
  withdraw v caller (v.sharesOf caller)

/-- Modelled from the spec: owner-only `emergencyWithdraw(amount)` decreases
`totalAssets` by `amount` without modifying any share balances; a caller
other than the owner fails with `Unauthorized`. -/
def emergencyWithdraw (v : Vault) (caller amount : Nat) : Except VaultError Vault :=
  if caller = v.owner then
    .ok { v with totalAssets := v.totalAssets - amount }
  else .error .unauthorized

/-- Modelled from the spec: a donation sends asset units directly to the
ledger's asset balance, bypassing `deposit` — it increases `totalAssets`
and mints no shares. -/
def donate (v : Vault) (amount : Nat) : Vault :=
  { v with totalAssets := v.totalAssets + amount }

/-- Modelled from the spec: the ledger starts at zero/zero. -/
def emptyVault (o : Nat) : Vault :=
  { owner := o, totalAssets := 0, totalShares := 0, sharesOf := fun _ => 0 }

/-- Transaction semantics of `deposit`: an error aborts the whole operation
with no partial state change. -/
def depositRun (v : Vault) (caller amount : Nat) : Vault × Except VaultError Nat :=
  match deposit v caller amount with
  | .ok (v', m) => (v', .ok m)
  | .error e => (v, .error e)

/-- Transaction semantics of `withdraw`: an error aborts the whole operation
with no partial state change. -/
def withdrawRun (v : Vault) (caller sharesToBurn : Nat) : Vault × Except VaultError Nat :=
  match withdraw v caller sharesToBurn with
  | .ok (v', out) => (v', .ok out)
  | .error e => (v, .error e)

/-- Transaction semantics of `withdrawAll`. -/
def withdrawAllRun (v : Vault) (caller : Nat) : Vault × Except VaultError Nat :=
  match withdrawAll v caller with
  | .ok (v', out) => (v', .ok out)
  | .error e => (v, .error e)

/-- Transaction semantics of `emergencyWithdraw`. -/
def emergencyRun (v : Vault) (caller amount : Nat) : Vault × Except VaultError Unit :=
  match emergencyWithdraw v caller amount with
  | .ok v' => (v', .ok ())
  | .error e => (v, .error e)

theorem virtual_shares_pos : 0 < VIRTUAL_SHARES := by
  unfold VIRTUAL_SHARES; omega

theorem deposit_eq (v : Vault) (caller amount : Nat) (h : amount ≠ 0) :
    deposit v caller amount = .ok ({ v with
        totalAssets := v.totalAssets + amount
        totalShares := v.totalShares + convertToShares v amount
        sharesOf := fun a =>
          if a = caller then v.sharesOf a + convertToShares v amount
          else v.sharesOf a },
      convertToShares v amount) := by
  unfold deposit
  rw [if_neg h]

theorem withdraw_eq (v : Vault) (caller sharesToBurn : Nat) (h0 : sharesToBurn ≠ 0)
    (hle : ¬ v.sharesOf caller < sharesToBurn) :
    withdraw v caller sharesToBurn = .ok ({ v with
        totalAssets := v.totalAssets - convertToAssets v sharesToBurn
        totalShares := v.totalShares - sharesToBurn
        sharesOf := fun a =>
          if a = caller then v.sharesOf a - sharesToBurn
          else v.sharesOf a },
      convertToAssets v sharesToBurn) := by
  unfold withdraw
  rw [if_neg h0, if_neg hle]

/-- When the burned share count does not exceed the total share supply, the
floor-rounded payout never exceeds the total assets held. -/
theorem convertToAssets_le_totalAssets (v : Vault) (sharesToBurn : Nat)
    (hb : sharesToBurn ≤ v.totalShares) :
    convertToAssets v sharesToBurn ≤ v.totalAssets := by
  unfold convertToAssets
  have hS : 0 < v.totalShares + VIRTUAL_SHARES :=
    Nat.lt_of_lt_of_le virtual_shares_pos (Nat.le_add_left _ _)
  have hlt : sharesToBurn * (v.totalAssets + VIRTUAL_ASSETS) <
      (v.totalAssets + VIRTUAL_ASSETS) * (v.totalShares + VIRTUAL_SHARES) := by
    calc sharesToBurn * (v.totalAssets + VIRTUAL_ASSETS)
        ≤ v.totalShares * (v.totalAssets + VIRTUAL_ASSETS) :=
          Nat.mul_le_mul_right _ hb
      _ < (v.totalShares + VIRTUAL_SHARES) * (v.totalAssets + VIRTUAL_ASSETS) := by
          apply mul_lt_mul_of_pos_right
          · exact Nat.lt_add_of_pos_right virtual_shares_pos
          · simp [VIRTUAL_ASSETS]
      _ = (v.totalAssets + VIRTUAL_ASSETS) * (v.totalShares + VIRTUAL_SHARES) :=
          Nat.mul_comm _ _
  have hdiv := (Nat.div_lt_iff_lt_mul hS).mpr hlt
  simp only [VIRTUAL_ASSETS] at hdiv ⊢
  exact Nat.lt_succ_iff.mp hdiv

/-- C1: for every ledger state and every `assets ≥ 0`,
`convertToAssets(convertToShares(assets)) ≤ assets` — floor rounding in both
conversions never lets a depositor extract more than they put in. -/
theorem convert_roundtrip_le (v : Vault) (assets : Nat) :
    convertToAssets v (convertToShares v assets) ≤ assets := by
  unfold convertToAssets convertToShares
  have hS : 0 < v.totalShares + VIRTUAL_SHARES :=
    Nat.lt_of_lt_of_le virtual_shares_pos (Nat.le_add_left _ _)
  calc assets * (v.totalShares + VIRTUAL_SHARES) / (v.totalAssets + VIRTUAL_ASSETS) *
        (v.totalAssets + VIRTUAL_ASSETS) / (v.totalShares + VIRTUAL_SHARES)
      ≤ assets * (v.totalShares + VIRTUAL_SHARES) / (v.totalShares + VIRTUAL_SHARES) :=
        Nat.div_le_div_right (Nat.div_mul_le_self _ _)
    _ = assets := Nat.mul_div_cancel assets hS

/-- C2: `convertToShares` is exactly
`floor(assets * (totalShares + 1e9) / (totalAssets + 1))` and
`convertToAssets` is exactly
`floor(shares * (totalAssets + 1) / (totalShares + 1e9))`; both are total
for every non-negative input because the denominators are always ≥ 1,
including at the zero/zero state. -/
theorem convert_formulas (v : Vault) (assets sharesAmt : Nat) :
    convertToShares v assets =
      assets * (v.totalShares + 1000000000) / (v.totalAssets + 1) ∧
    convertToAssets v sharesAmt =
      sharesAmt * (v.totalAssets + 1) / (v.totalShares + 1000000000) ∧
    1 ≤ v.totalAssets + VIRTUAL_ASSETS ∧ 1 ≤ v.totalShares + VIRTUAL_SHARES := by
  refine ⟨rfl, rfl, ?_, ?_⟩ <;> simp [VIRTUAL_ASSETS, VIRTUAL_SHARES]

/-- C3: for every ledger state and `amount > 0`, `deposit(amount)` succeeds,
mints `convertToShares(amount)` computed at the pre-deposit totals, and
afterwards `totalAssets` grew by `amount`, `totalShares` and
`sharesOf(caller)` by the minted amount; and concretely the first deposit of
`100e18` into an empty ledger mints exactly `1e29` shares. -/
theorem deposit_spec (v : Vault) (caller amount : Nat) (h : 0 < amount) :
    (∃ v', deposit v caller amount = .ok (v', convertToShares v amount) ∧
      v'.totalAssets = v.totalAssets + amount ∧
      v'.totalShares = v.totalShares + convertToShares v amount ∧
      v'.sharesOf caller = v.sharesOf caller + convertToShares v amount) ∧
    (∃ w, deposit (emptyVault 0) 1 (100 * 10 ^ 18) = .ok (w, 10 ^ 29)) := by
  constructor
  · refine ⟨{ v with
        totalAssets := v.totalAssets + amount
        totalShares := v.totalShares + convertToShares v amount
        sharesOf := fun a =>
          if a = caller then v.sharesOf a + convertToShares v amount
          else v.sharesOf a },
      ?_, rfl, rfl, by simp⟩
    unfold deposit
    rw [if_neg (Nat.pos_iff_ne_zero.mp h)]
  · exact ⟨_, rfl⟩

/-- Witness for C3 at a concrete input: deposit 5 units by account 3 into
the empty ledger. -/
theorem deposit_spec_witness :
    0 < 5 ∧
    ((∃ v', deposit (emptyVault 0) 3 5 = .ok (v', convertToShares (emptyVault 0) 5) ∧
        v'.totalAssets = (emptyVault 0).totalAssets + 5 ∧
        v'.totalShares = (emptyVault 0).totalShares + convertToShares (emptyVault 0) 5 ∧
        v'.sharesOf 3 = (emptyVault 0).sharesOf 3 + convertToShares (emptyVault 0) 5) ∧
      (∃ w, deposit (emptyVault 0) 1 (100 * 10 ^ 18) = .ok (w, 10 ^ 29))) :=
  ⟨by decide, deposit_spec (emptyVault 0) 3 5 (by decide)⟩

/-- C5: inflation-attack scenario — the attacker (account 1) deposits 1 wei
into the empty ledger, then donates `999_999_999_999_999_999` wei directly
to the asset balance bypassing `deposit`; when the victim (account 2) then
deposits `100e18`, the victim is minted `199_999_999_999` shares, which is
strictly greater than 0. -/
theorem inflation_attack_resisted :
    ∃ v1 v2 : Vault,
      deposit (emptyVault 0) 1 1 = .ok (v1, 1000000000) ∧
      deposit (donate v1 999999999999999999) 2 (100 * 10 ^ 18) =
        .ok (v2, 199999999999) ∧
      0 < 199999999999 := by
  exact ⟨_, _, rfl, rfl, by norm_num⟩

/-- C4: for every ledger state satisfying the data-model invariant (the
caller's balance is covered by `totalShares`) and every `sharesToBurn` with
`0 < sharesToBurn ≤ sharesOf(caller)`, `withdraw` succeeds, pays out
`convertToAssets(sharesToBurn)` computed at the pre-withdrawal totals, and
afterwards `sharesOf(caller)`, `totalShares` have decreased by
`sharesToBurn` and `totalAssets` by the payout. -/
theorem withdraw_spec (v : Vault) (caller sharesToBurn : Nat)
    (h0 : 0 < sharesToBurn) (hle : sharesToBurn ≤ v.sharesOf caller)
    (hinv : v.sharesOf caller ≤ v.totalShares) :
    ∃ v', withdraw v caller sharesToBurn = .ok (v', convertToAssets v sharesToBurn) ∧
      v'.sharesOf caller + sharesToBurn = v.sharesOf caller ∧
      v'.totalShares + sharesToBurn = v.totalShares ∧
      v'.totalAssets + convertToAssets v sharesToBurn = v.totalAssets := by
  have hbS : sharesToBurn ≤ v.totalShares := le_trans hle hinv
  have hout : convertToAssets v sharesToBurn ≤ v.totalAssets :=
    convertToAssets_le_totalAssets v sharesToBurn hbS
  refine ⟨{ v with
      totalAssets := v.totalAssets - convertToAssets v sharesToBurn
      totalShares := v.totalShares - sharesToBurn
      sharesOf := fun a =>
        if a = caller then v.sharesOf a - sharesToBurn
        else v.sharesOf a },
    withdraw_eq v caller sharesToBurn (Nat.pos_iff_ne_zero.mp h0) (Nat.not_lt.mpr hle),
    ?_, Nat.sub_add_cancel hbS, Nat.sub_add_cancel hout⟩
  simp [Nat.sub_add_cancel hle]

/-- Witness for C4 at a concrete state: an account holding 2e9 of the 2e9
outstanding shares over 2 asset units burns 1e9 shares. -/
theorem withdraw_spec_witness :
    0 < 1000000000 ∧
    1000000000 ≤ Vault.sharesOf ⟨0, 2, 2000000000, fun _ => 2000000000⟩ 4 ∧
    Vault.sharesOf ⟨0, 2, 2000000000, fun _ => 2000000000⟩ 4 ≤
      Vault.totalShares ⟨0, 2, 2000000000, fun _ => 2000000000⟩ ∧
    (∃ v', withdraw ⟨0, 2, 2000000000, fun _ => 2000000000⟩ 4 1000000000 =
        .ok (v', convertToAssets ⟨0, 2, 2000000000, fun _ => 2000000000⟩ 1000000000) ∧
      v'.sharesOf 4 + 1000000000 =
        Vault.sharesOf ⟨0, 2, 2000000000, fun _ => 2000000000⟩ 4 ∧
      v'.totalShares + 1000000000 =
        Vault.totalShares ⟨0, 2, 2000000000, fun _ => 2000000000⟩ ∧
      v'.totalAssets + convertToAssets ⟨0, 2, 2000000000, fun _ => 2000000000⟩ 1000000000 =
        Vault.totalAssets ⟨0, 2, 2000000000, fun _ => 2000000000⟩) :=
  ⟨by decide, by decide, by decide,
    withdraw_spec ⟨0, 2, 2000000000, fun _ => 2000000000⟩ 4 1000000000
      (by decide) (by decide) (by decide)⟩

/-- C6: `deposit` fails with `InvalidAmount` exactly when the amount is 0,
`withdraw` fails with `InvalidAmount` exactly when the burned share count
is 0, and in both failing cases the ledger state is unchanged. -/
theorem zero_amount_invalid (v : Vault) (caller a b : Nat) :
    (deposit v caller a = .error .invalidAmount ↔ a = 0) ∧
    (withdraw v caller b = .error .invalidAmount ↔ b = 0) ∧
    (a = 0 → (depositRun v caller a).1 = v) ∧
    (b = 0 → (withdrawRun v caller b).1 = v) := by
  refine ⟨?_, ?_, ?_, ?_⟩
  · unfold deposit
    by_cases ha : a = 0 <;> simp [ha]
  · unfold withdraw
    by_cases hb : b = 0
    · simp [hb]
    · rw [if_neg hb]
      split <;> simp [hb]
  · intro ha; subst ha; rfl
  · intro hb; subst hb; rfl

/-- Witness for C6 at a concrete input: zero-amount deposit and withdrawal
against the empty ledger. -/
theorem zero_amount_invalid_witness :
    deposit (emptyVault 0) 3 0 = .error .invalidAmount ∧
    withdraw (emptyVault 0) 3 0 = .error .invalidAmount ∧
    (depositRun (emptyVault 0) 3 0).1 = emptyVault 0 ∧
    (withdrawRun (emptyVault 0) 3 0).1 = emptyVault 0 :=
  ⟨(zero_amount_invalid (emptyVault 0) 3 0 0).1.mpr rfl,
   (zero_amount_invalid (emptyVault 0) 3 0 0).2.1.mpr rfl,
   (zero_amount_invalid (emptyVault 0) 3 0 0).2.2.1 rfl,
   (zero_amount_invalid (emptyVault 0) 3 0 0).2.2.2 rfl⟩

/-- C7: whenever the requested burn exceeds the caller's balance,
`withdraw` fails with `InsufficientShares` and the whole ledger state —
`totalAssets`, `totalShares` and every `sharesOf` balance — is unchanged. -/
theorem insufficient_shares_spec (v : Vault) (caller b : Nat)
    (h : v.sharesOf caller < b) :
    withdraw v caller b = .error .insufficientShares ∧
    (withdrawRun v caller b).1 = v := by
  have hb : b ≠ 0 := by omega
  have he : withdraw v caller b = .error .insufficientShares := by
    unfold withdraw
    rw [if_neg hb, if_pos h]
  refine ⟨he, ?_⟩
  unfold withdrawRun
  rw [he]

/-- Witness for C7 at a concrete input: account 0 holds no shares in the
empty ledger yet requests 1 share. -/
theorem insufficient_shares_witness :
    (emptyVault 0).sharesOf 0 < 1 ∧
    (withdraw (emptyVault 0) 0 1 = .error .insufficientShares ∧
      (withdrawRun (emptyVault 0) 0 1).1 = emptyVault 0) :=
  ⟨by decide, insufficient_shares_spec (emptyVault 0) 0 1 (by decide)⟩

/-- C8: `withdrawAll(caller)` coincides with `withdraw(sharesOf(caller))`
by the same caller, both as an `Except` result (payout and error outcome)
and under the all-or-nothing transaction semantics (final state). -/
theorem withdrawAll_equiv (v : Vault) (caller : Nat) :
    withdrawAll v caller = withdraw v caller (v.sharesOf caller) ∧
    withdrawAllRun v caller = withdrawRun v caller (v.sharesOf caller) :=
  ⟨rfl, rfl⟩

/-- C9: when the owner calls `emergencyWithdraw(amount)`, `totalAssets`
decreases by exactly `amount` (exact whenever `amount ≤ totalAssets`, the
only case expressible in the non-negative-integer data model) while
`totalShares` and every `sharesOf` balance are untouched; any other caller
fails with `Unauthorized` and the ledger is unchanged. -/
theorem emergencyWithdraw_spec (v : Vault) (caller amount : Nat) :
    (caller = v.owner →
      ∃ v', emergencyWithdraw v caller amount = .ok v' ∧
        v'.totalShares = v.totalShares ∧
        v'.sharesOf = v.sharesOf ∧
        v'.totalAssets = v.totalAssets - amount ∧
        (amount ≤ v.totalAssets → v'.totalAssets + amount = v.totalAssets)) ∧
    (caller ≠ v.owner →
      emergencyWithdraw v caller amount = .error .unauthorized ∧
      (emergencyRun v caller amount).1 = v) := by
  constructor
  · intro ho
    refine ⟨{ v with totalAssets := v.totalAssets - amount }, ?_, rfl, rfl, rfl,
      fun hle => Nat.sub_add_cancel hle⟩
    unfold emergencyWithdraw
    rw [if_pos ho]
  · intro ho
    have he : emergencyWithdraw v caller amount = .error .unauthorized := by
      unfold emergencyWithdraw
      rw [if_neg ho]
    refine ⟨he, ?_⟩
    unfold emergencyRun
    rw [he]

/-- Witness for C9 at a concrete state: the owner (account 0) removes 2 of
the 5 asset units, and account 1 is rejected. -/
theorem emergencyWithdraw_spec_witness :
    (0 = Vault.owner ⟨0, 5, 7, fun _ => 3⟩) ∧
    (1 ≠ Vault.owner ⟨0, 5, 7, fun _ => 3⟩) ∧
    (∃ v', emergencyWithdraw ⟨0, 5, 7, fun _ => 3⟩ 0 2 = .ok v' ∧
      v'.totalShares = Vault.totalShares ⟨0, 5, 7, fun _ => 3⟩ ∧
      v'.sharesOf = Vault.sharesOf ⟨0, 5, 7, fun _ => 3⟩ ∧
      v'.totalAssets = Vault.totalAssets ⟨0, 5, 7, fun _ => 3⟩ - 2 ∧
      (2 ≤ Vault.totalAssets ⟨0, 5, 7, fun _ => 3⟩ →
        v'.totalAssets + 2 = Vault.totalAssets ⟨0, 5, 7, fun _ => 3⟩)) ∧
    (emergencyWithdraw ⟨0, 5, 7, fun _ => 3⟩ 1 2 = .error .unauthorized ∧
      (emergencyRun ⟨0, 5, 7, fun _ => 3⟩ 1 2).1 = ⟨0, 5, 7, fun _ => 3⟩) :=
  ⟨rfl, by decide,
    (emergencyWithdraw_spec ⟨0, 5, 7, fun _ => 3⟩ 0 2).1 rfl,
    (emergencyWithdraw_spec ⟨0, 5, 7, fun _ => 3⟩ 1 2).2 (by decide)⟩

/-- C10: a single user depositing `a > 0` into the empty ledger is minted
exactly `a * VIRTUAL_SHARES` shares, and an immediate `withdrawAll` pays
back exactly `a` and leaves `totalShares = totalAssets = 0`: the redemption
division is exact, so the round trip loses nothing to floor rounding. -/
theorem single_user_roundtrip (o caller a : Nat) (h : 0 < a) :
    ∃ v1 v2 : Vault,
      deposit (emptyVault o) caller a = .ok (v1, a * VIRTUAL_SHARES) ∧
      withdrawAll v1 caller = .ok (v2, a) ∧
      v2.totalShares = 0 ∧ v2.totalAssets = 0 := by
  have ha0 : a ≠ 0 := Nat.pos_iff_ne_zero.mp h
  have hVS : VIRTUAL_SHARES ≠ 0 := Nat.pos_iff_ne_zero.mp virtual_shares_pos
  have hminted : convertToShares (emptyVault o) a = a * VIRTUAL_SHARES := by
    simp [convertToShares, emptyVault, VIRTUAL_ASSETS]
  refine ⟨⟨o, a, a * VIRTUAL_SHARES, fun x => if x = caller then a * VIRTUAL_SHARES else 0⟩,
    ⟨o, 0, 0, fun x => if x = caller then 0 else 0⟩, ?_, ?_, rfl, rfl⟩
  · rw [deposit_eq (emptyVault o) caller a ha0, hminted]
    simp [emptyVault]
  · have hburn : Vault.sharesOf
        ⟨o, a, a * VIRTUAL_SHARES, fun x => if x = caller then a * VIRTUAL_SHARES else 0⟩
        caller = a * VIRTUAL_SHARES := by simp
    have hout : convertToAssets
        ⟨o, a, a * VIRTUAL_SHARES, fun x => if x = caller then a * VIRTUAL_SHARES else 0⟩
        (a * VIRTUAL_SHARES) = a := by
      unfold convertToAssets
      have hden : a * VIRTUAL_SHARES + VIRTUAL_SHARES = VIRTUAL_SHARES * (a + VIRTUAL_ASSETS) := by
        simp [VIRTUAL_ASSETS]; ring
      have hnum : a * VIRTUAL_SHARES * (a + VIRTUAL_ASSETS) =
          a * (VIRTUAL_SHARES * (a + VIRTUAL_ASSETS)) := by ring
      have hdpos : 0 < VIRTUAL_SHARES * (a + VIRTUAL_ASSETS) := by
        apply Nat.mul_pos virtual_shares_pos
        simp [VIRTUAL_ASSETS]
      rw [hden, hnum]
      exact Nat.mul_div_cancel a hdpos
    unfold withdrawAll
    rw [hburn, withdraw_eq _ _ _ (Nat.mul_ne_zero ha0 hVS) (by rw [hburn]; exact Nat.lt_irrefl _),
      hout]
    refine congrArg Except.ok ?_
    refine Prod.ext ?_ rfl
    simp only [Vault.mk.injEq]
    refine ⟨by trivial, by simp, by simp, funext fun x => ?_⟩
    by_cases hx : x = caller <;> simp [hx]

/-- Witness for C10 at a concrete input: a deposit of 7 units by account 1
into the empty ledger, followed by `withdrawAll`. -/
theorem single_user_roundtrip_witness :
    0 < 7 ∧
    (∃ v1 v2 : Vault,
      deposit (emptyVault 0) 1 7 = .ok (v1, 7 * VIRTUAL_SHARES) ∧
      withdrawAll v1 1 = .ok (v2, 7) ∧
      v2.totalShares = 0 ∧ v2.totalAssets = 0) :=
  ⟨by decide, single_user_roundtrip 0 1 7 (by decide)⟩

end RskVyper
